import Mathlib

/-
Verification of the response-extraction / schema-normalization pipeline and the
orchestration loop of `src/lambda_code/redditAwsPostAnalyzer.py`.

The embedding models:
  * parsed JSON values (`JValue`), with Python `dict` lookup semantics
    (duplicate keys: last binding wins, as produced by `json.loads`);
  * Python `str()` / `repr()` on JSON-derived values (`pyStr`, `pyRepr`) —
    scalar behaviour is exact; for containers the rendering follows CPython's
    structure; `repr`'s escaping of special characters inside strings is not
    reproduced (no claim depends on it);
  * `json.dumps` with default separators (`jsonDumps`); `ensure_ascii`
    escaping of non-ASCII characters is not reproduced (all inputs of
    interest are ASCII);
  * the two regex searches of `invoke_bedrock` lines 212-219
    (`extractJsonSpan`), the control-character sanitization of line 221
    (`sanitizeJsonStr`), a fuel-based model of `json.loads(..., strict=False)`
    restricted to the JSON forms the pipeline exercises (objects, arrays,
    strings with the standard single-character escapes, integer numerals,
    `true`/`false`/`null`; raw control characters inside strings are accepted,
    which is exactly what `strict=False` adds over strict mode), and
  * the "Standardize and Validate Parsed JSON" block, lines 252-306
    (`standardizeAnalysisJson`), together with the error records returned on
    the no-JSON-found and parse-failure paths (`processAnalysisText`);
  * the eligibility scan (lines 374-387) and the per-post processing loop
    (lines 412-553) of `lambda_handler`, the latter as a trace-producing
    function driven by a failure oracle covering the exception paths the
    code catches.
-/

/-- A parsed JSON value, as produced by `json.loads`.  Numbers are modelled as
integers; no claim involves fractional numerals. -/
inductive JValue where
  | null
  | bool (b : Bool)
  | int (n : Int)
  | str (s : String)
  | arr (items : List JValue)
  | obj (fields : List (String × JValue))

/-- Python `dict.get` lookup on the field list of a parsed object.  `json.loads`
builds the dict by inserting pairs in textual order, so a duplicated key keeps
its last value: the lookup prefers the rightmost binding. -/
def dlookup : List (String × JValue) → String → Option JValue
  | [], _ => none
  | (k, v) :: rest, key =>
    match dlookup rest key with
    | some r => some r
    | none => if k = key then some v else none

/-- Python `dict.get(key, default)`. -/
def dget (fs : List (String × JValue)) (k : String) (d : JValue) : JValue :=
  (dlookup fs k).getD d

mutual

/-- Python `repr` on a JSON-derived value (strings are shown quoted; CPython's
escaping of quotes/backslashes inside the string is not modelled). -/
def pyRepr : JValue → String
  | .null => "None"
  | .bool true => "True"
  | .bool false => "False"
  | .int n => toString n
  | .str s => "'" ++ s ++ "'"
  | .arr items => "[" ++ pyReprList items ++ "]"
  | .obj fields => "\x7b" ++ pyReprFields fields ++ "\x7d"

/-- Comma-separated `repr` of list elements. -/
def pyReprList : List JValue → String
  | [] => ""
  | [v] => pyRepr v
  | v :: rest => pyRepr v ++ ", " ++ pyReprList rest

/-- Comma-separated `repr` of dict entries. -/
def pyReprFields : List (String × JValue) → String
  | [] => ""
  | [(k, v)] => "'" ++ k ++ "': " ++ pyRepr v
  | (k, v) :: rest => "'" ++ k ++ "': " ++ pyRepr v ++ ", " ++ pyReprFields rest

end

/-- Python `str()` on a JSON-derived value: identity on strings, `repr`
otherwise (CPython's `str` of ints, bools, `None`, lists and dicts coincides
with `repr`). -/
def pyStr : JValue → String
  | .str s => s
  | v => pyRepr v

/-- Escape one character the way `json.dumps` does (default `ensure_ascii`
behaviour for non-ASCII characters is not modelled; inputs of interest are
ASCII). -/
def jsonEscapeChar (c : Char) : String :=
  if c = '"' then "\\\""
  else if c = '\\' then "\\\\"
  else if c = '\n' then "\\n"
  else if c = '\t' then "\\t"
  else if c = '\r' then "\\r"
  else if c = '\x08' then "\\b"
  else if c = '\x0c' then "\\f"
  else String.singleton c

/-- Escape a string the way `json.dumps` does. -/
def jsonEscape (s : String) : String :=
  s.data.foldr (fun c acc => jsonEscapeChar c ++ acc) ""

mutual

/-- Python `json.dumps` with the default separators `", "` and `": "`. -/
def jsonDumps : JValue → String
  | .null => "null"
  | .bool true => "true"
  | .bool false => "false"
  | .int n => toString n
  | .str s => "\"" ++ jsonEscape s ++ "\""
  | .arr items => "[" ++ jsonDumpsList items ++ "]"
  | .obj fields => "\x7b" ++ jsonDumpsFields fields ++ "\x7d"

/-- Comma-separated `json.dumps` of list elements. -/
def jsonDumpsList : List JValue → String
  | [] => ""
  | [v] => jsonDumps v
  | v :: rest => jsonDumps v ++ ", " ++ jsonDumpsList rest

/-- Comma-separated `json.dumps` of object entries. -/
def jsonDumpsFields : List (String × JValue) → String
  | [] => ""
  | [(k, v)] => "\"" ++ jsonEscape k ++ "\": " ++ jsonDumps v
  | (k, v) :: rest => "\"" ++ jsonEscape k ++ "\": " ++ jsonDumps v ++ ", " ++ jsonDumpsFields rest

end

/-- The character class of `re.sub(r'[\x00-\x08\x0B\x0C\x0E-\x1F]', '', ...)`
at line 221: the ASCII control characters stripped by the sanitization step. -/
def strippedChar (c : Char) : Bool :=
  decide ((0x00 ≤ c.toNat ∧ c.toNat ≤ 0x08) ∨ c.toNat = 0x0B ∨ c.toNat = 0x0C ∨
          (0x0E ≤ c.toNat ∧ c.toNat ≤ 0x1F))

/-- Line 221: remove the disallowed control characters from the extracted
span, preserving tab, newline, carriage return and everything else. -/
def sanitizeJsonStr (s : String) : String :=
  ⟨s.data.filter (fun c => !strippedChar c)⟩

/-- Python `\s` on ASCII input (`[ \t\n\r\f\v]`; the Unicode white-space
extension of `str` patterns is not modelled — no input of interest uses it). -/
def isPyWs (c : Char) : Bool :=
  c = ' ' || c = '\t' || c = '\n' || c = '\r' || c = '\x0b' || c = '\x0c'

/-- The strict regex of line 214, `re.search(r'^\s*(\{.*?\})\s*$', text,
re.DOTALL)`: it matches exactly when everything before the first brace and
after the last closing brace is white space, and then the captured group runs
from the first opening brace to the last closing brace (the lazy `.*?` is
forced to the last closing brace by the `\s*$` anchor). -/
def strictSpan (cs : List Char) : Option (List Char) :=
  let pre := cs.takeWhile (fun c => c ≠ '\x7b')
  let rest := cs.dropWhile (fun c => c ≠ '\x7b')
  match rest with
  | [] => none
  | _ :: _ =>
    if pre.all isPyWs then
      let r := rest.reverse
      let post := r.takeWhile (fun c => c ≠ '\x7d')
      match r.dropWhile (fun c => c ≠ '\x7d') with
      | [] => none
      | c2 :: r2 => if post.all isPyWs then some ((c2 :: r2).reverse) else none
    else none

/-- The fallback regex of line 216, `re.search(r'(\{.*?\})', text, re.DOTALL)`:
the first match of a lazy brace pair, i.e. the span from the first opening
brace to the first closing brace after it. -/
def fallbackSpan (cs : List Char) : Option (List Char) :=
  match cs.dropWhile (fun c => c ≠ '\x7b') with
  | [] => none
  | b :: tail =>
    let mid := tail.takeWhile (fun c => c ≠ '\x7d')
    match tail.dropWhile (fun c => c ≠ '\x7d') with
    | [] => none
    | _ :: _ => some (b :: (mid ++ ['\x7d']))

/-- Lines 212-219: try the anchored regex first, then the lenient one; the
result is `match.group(1)`. -/
def extractJsonSpan (s : String) : Option String :=
  match strictSpan s.data with
  | some g => some ⟨g⟩
  | none => (fallbackSpan s.data).map (fun g => ⟨g⟩)

/-- JSON white space accepted by `json.loads` between tokens. -/
def jskipWs : List Char → List Char
  | [] => []
  | c :: rest => if c = ' ' ∨ c = '\t' ∨ c = '\n' ∨ c = '\r' then jskipWs rest else c :: rest

/-- String-literal body scanner of the tolerant parse (`strict=False`): raw
control characters inside the literal are accepted; the standard
single-character escapes are decoded (`\uXXXX` is not modelled — no input of
interest uses it). -/
def parseStringBody (fuel : Nat) (cs : List Char) (acc : List Char) :
    Except String (String × List Char) :=
  match fuel, cs with
  | 0, _ => .error "Unterminated string"
  | _, [] => .error "Unterminated string"
  | f + 1, c :: rest =>
    if c = '"' then .ok (⟨acc.reverse⟩, rest)
    else if c = '\\' then
      match rest with
      | [] => .error "Unterminated string"
      | e :: rest2 =>
        if e = '"' then parseStringBody f rest2 ('"' :: acc)
        else if e = '\\' then parseStringBody f rest2 ('\\' :: acc)
        else if e = '/' then parseStringBody f rest2 ('/' :: acc)
        else if e = 'n' then parseStringBody f rest2 ('\n' :: acc)
        else if e = 't' then parseStringBody f rest2 ('\t' :: acc)
        else if e = 'r' then parseStringBody f rest2 ('\r' :: acc)
        else if e = 'b' then parseStringBody f rest2 ('\x08' :: acc)
        else if e = 'f' then parseStringBody f rest2 ('\x0c' :: acc)
        else .error "Invalid escape"
    else parseStringBody f rest (c :: acc)

/-- Consume a run of decimal digits. -/
def parseDigits : List Char → Nat → Bool → Option (Nat × List Char)
  | [], acc, seen => if seen then some (acc, []) else none
  | c :: rest, acc, seen =>
    if c.isDigit then parseDigits rest (acc * 10 + (c.toNat - '0'.toNat)) true
    else if seen then some (acc, c :: rest) else none

/-- Integer numeral of the JSON grammar (fractional and exponent forms are
outside the modelled fragment and are rejected). -/
def parseNumberFrom (cs : List Char) : Except String (JValue × List Char) :=
  let core : List Char → Bool → Except String (JValue × List Char) := fun ds neg =>
    match parseDigits ds 0 false with
    | none => .error "Expecting value"
    | some (n, rest) =>
      match rest with
      | c :: _ =>
        if c = '.' ∨ c = 'e' ∨ c = 'E' then .error "Numeral form outside modelled fragment"
        else .ok (.int (if neg then -(n : Int) else (n : Int)), rest)
      | [] => .ok (.int (if neg then -(n : Int) else (n : Int)), [])
  match cs with
  | '-' :: rest => core rest true
  | _ => core cs false

mutual

/-- One JSON value of the tolerant parse, with fuel bounding the recursion. -/
def parseJValue (fuel : Nat) (cs : List Char) : Except String (JValue × List Char) :=
  match fuel with
  | 0 => .error "Expecting value"
  | f + 1 =>
    match jskipWs cs with
    | [] => .error "Expecting value"
    | c :: rest =>
      if c = '\x7b' then parseMembers f rest true []
      else if c = '[' then parseElements f rest true []
      else if c = '"' then
        match parseStringBody (rest.length + 1) rest [] with
        | .error e => .error e
        | .ok (s, r) => .ok (.str s, r)
      else if c = 't' then
        match rest with
        | 'r' :: 'u' :: 'e' :: r => .ok (.bool true, r)
        | _ => .error "Expecting value"
      else if c = 'f' then
        match rest with
        | 'a' :: 'l' :: 's' :: 'e' :: r => .ok (.bool false, r)
        | _ => .error "Expecting value"
      else if c = 'n' then
        match rest with
        | 'u' :: 'l' :: 'l' :: r => .ok (.null, r)
        | _ => .error "Expecting value"
      else parseNumberFrom (c :: rest)

/-- Object members after the opening brace. -/
def parseMembers (fuel : Nat) (cs : List Char) (first : Bool)
    (acc : List (String × JValue)) : Except String (JValue × List Char) :=
  match fuel with
  | 0 => .error "Expecting property name"
  | f + 1 =>
    match jskipWs cs with
    | [] => .error "Expecting property name"
    | c :: rest =>
      if first ∧ c = '\x7d' then .ok (.obj [], rest)
      else if c = '"' then
        match parseStringBody (rest.length + 1) rest [] with
        | .error e => .error e
        | .ok (k, r1) =>
          match jskipWs r1 with
          | ':' :: r2 =>
            match parseJValue f r2 with
            | .error e => .error e
            | .ok (v, r3) =>
              match jskipWs r3 with
              | ',' :: r4 => parseMembers f r4 false (acc ++ [(k, v)])
              | '\x7d' :: r4 => .ok (.obj (acc ++ [(k, v)]), r4)
              | _ => .error "Expecting delimiter"
          | _ => .error "Expecting colon"
      else .error "Expecting property name"

/-- Array elements after the opening bracket. -/
def parseElements (fuel : Nat) (cs : List Char) (first : Bool)
    (acc : List JValue) : Except String (JValue × List Char) :=
  match fuel with
  | 0 => .error "Expecting value"
  | f + 1 =>
    match jskipWs cs with
    | [] => .error "Expecting value"
    | c :: rest =>
      if first ∧ c = ']' then .ok (.arr [], rest)
      else
        match parseJValue f (c :: rest) with
        | .error e => .error e
        | .ok (v, r1) =>
          match jskipWs r1 with
          | ',' :: r2 => parseElements f r2 false (acc ++ [v])
          | ']' :: r2 => .ok (.arr (acc ++ [v]), r2)
          | _ => .error "Expecting delimiter"

end

/-- Model of `json.loads(s, strict=False)` restricted to the exercised
fragment: parse one value, then require only white space to remain. -/
def jsonLoads (s : String) : Except String JValue :=
  match parseJValue (2 * s.length + 8) s.data with
  | .error e => .error e
  | .ok (v, rest) => if jskipWs rest = [] then .ok v else .error "Extra data"

/-- Line 256 / line 283 sentinel. -/
def sentinelMissing : String := "N/A - Key missing or invalid type"

/-- `default_solution_explanation_on_error_str`, line 165. -/
def defaultSeError : String := "Error: Bedrock analysis or JSON parsing failed."

/-- `default_problem_explanation_on_error`, lines 160-163. -/
def defaultPeError : JValue :=
  .obj [("primary_concepts", .arr []), ("explanation", .str defaultSeError)]

/-- `default_categories_on_error`, line 167. -/
def defaultCatsError : List String := ["Error", "Bedrock Call Failed"]

/-- Lines 267-272: projection of one `primary_concepts` entry that is a dict. -/
def stdConcept (cf : List (String × JValue)) : JValue :=
  .obj [("name", .str (pyStr (dget cf "name" (.str "N/A")))),
        ("definition", .str (pyStr (dget cf "definition" (.str "N/A")))),
        ("use_case", .str (pyStr (dget cf "use_case" (.str "N/A")))),
        ("how_it_functions", .str (pyStr (dget cf "how_it_functions" (.str "N/A"))))]

/-- Lines 263-274: the `primary_concepts` list — non-list values leave the
list empty, non-dict entries are silently dropped. -/
def stdConcepts : JValue → List JValue
  | .arr items =>
    items.filterMap (fun c =>
      match c with
      | .obj cf => some (stdConcept cf)
      | _ => none)
  | _ => []

/-- Lines 259-279: normalization of `problem_explanation`. -/
def stdProblemExplanation : JValue → JValue
  | .obj pf =>
    .obj [("primary_concepts", .arr (stdConcepts (dget pf "primary_concepts" (.arr [])))),
          ("explanation",
           .str (pyStr (dget pf "explanation"
                         (dget pf "relevance_to_problem" (.str "N/A - Explanation missing")))))]
  | _ => .obj [("primary_concepts", .arr []), ("explanation", .str "N/A - Content missing")]

/-- Lines 286-297: normalization of `solution_explanation` (dict values are
serialized with `json.dumps`; the `TypeError` fallback of line 292 cannot
trigger on a parsed JSON value, which is always serializable). -/
def stdSolutionExplanation : Option JValue → String
  | some (.obj o) => jsonDumps (.obj o)
  | some (.str s) => s
  | _ => defaultSeError

/-- Lines 299-304: normalization of `suggested_categories` — keep the
primitive-typed entries (`str`/`int`/`float`/`bool`), stringified. -/
def stdSuggestedCategories : Option JValue → List String
  | some (.arr items) =>
    items.filterMap (fun it =>
      match it with
      | .str s => some s
      | .int n => some (toString n)
      | .bool true => some "True"
      | .bool false => some "False"
      | _ => none)
  | _ => ["N/A - Invalid type or key missing"]

/-- Lines 252-306, the "Standardize and Validate Parsed JSON" block, applied
to the field list of the parsed object. -/
def standardizeAnalysisJson (fs : List (String × JValue)) : JValue :=
  .obj [("problem_summary", .str (pyStr (dget fs "problem_summary" (.str sentinelMissing)))),
        ("problem_explanation", stdProblemExplanation (dget fs "problem_explanation" (.obj []))),
        ("solution_summary", .str (pyStr (dget fs "solution_summary" (.str sentinelMissing)))),
        ("solution_explanation", .str (stdSolutionExplanation (dlookup fs "solution_explanation"))),
        ("suggested_categories",
         .arr ((stdSuggestedCategories (dlookup fs "suggested_categories")).map .str))]

/-- Schema-consistent error record used by the failure paths of
`invoke_bedrock`. -/
def mkErrorRecord (ps ss : String) (cats : List String) : JValue :=
  .obj [("problem_summary", .str ps),
        ("problem_explanation", defaultPeError),
        ("solution_summary", .str ss),
        ("solution_explanation", .str defaultSeError),
        ("suggested_categories", .arr (cats.map .str))]

/-- Lines 225-231: record returned when neither regex finds a brace span. -/
def noJsonRecord : JValue :=
  mkErrorRecord "Error: No JSON object found via regex in Bedrock output."
    "Error: No JSON object found via regex." ["Error", "No JSON Found via Regex"]

/-- Lines 244-250: record returned when the sanitized span still fails to
parse; `msg` stands for `e.msg`. -/
def fatalParseRecord (msg : String) : JValue :=
  mkErrorRecord ("Fatal JSON parsing error: " ++ msg)
    ("Fatal JSON parsing error: " ++ msg) ["Error", "Fatal Parsing Failed", msg]

/-- Lines 317-326: the `except Exception` record.  On this path the only
reachable cause after a successful parse would be an `AttributeError` from a
non-dict parse result (unreachable in fact: a span starting with an opening
brace parses to an object). -/
def unexpectedErrorRecord (ename : String) : JValue :=
  mkErrorRecord ("Error: Unexpected error during Bedrock - " ++ ename)
    ("Error: Unexpected error during Bedrock - " ++ ename) defaultCatsError

/-- Lines 210-306 of `invoke_bedrock`, from a non-empty model output text to
the returned record: regex extraction, sanitization, tolerant parse,
standardization, with the corresponding error records on each failure path. -/
def processAnalysisText (text : String) : JValue :=
  match extractJsonSpan text with
  | none => noJsonRecord
  | some span =>
    match jsonLoads (sanitizeJsonStr span) with
    | .error msg => fatalParseRecord msg
    | .ok (.obj fs) => standardizeAnalysisJson fs
    | .ok _ => unexpectedErrorRecord "AttributeError"

/-- Projection of a field out of a returned record. -/
def getField (v : JValue) (k : String) : Option JValue :=
  match v with
  | .obj fs => dlookup fs k
  | _ => none

/-- The post data the eligibility scan and processing loop consult. -/
structure RPost where
  id : String
  numComments : Nat
deriving Repr, DecidableEq

/-- Result of the eligibility scan: the eligible posts in scan order, the
number of posts examined (`posts_checked_count`), and the low-comment skip
counter (`skipped_due_to_low_comments`). -/
structure ScanResult where
  eligible : List RPost
  checked : Nat
  skippedLow : Nat
deriving Repr, DecidableEq

/-- Lines 375-386: one iteration per post, `posts_checked_count` incremented
first; an eligible post is appended and the loop breaks as soon as the
eligible list reaches `POST_LIMIT`; otherwise the low-comment counter is
incremented. -/
def scanPostsAux (minC target : Nat) (eligible : List RPost) (checked skipped : Nat) :
    List RPost → ScanResult
  | [] => ⟨eligible.reverse, checked, skipped⟩
  | p :: rest =>
    if minC ≤ p.numComments then
      if target ≤ eligible.length + 1 then ⟨(p :: eligible).reverse, checked + 1, skipped⟩
      else scanPostsAux minC target (p :: eligible) (checked + 1) skipped rest
    else scanPostsAux minC target eligible (checked + 1) (skipped + 1) rest

/-- The eligibility scan over `subreddit.new(limit=NEW_POST_CHECK_LIMIT)`:
the stream is capped at the scan budget, then scanned with early stop. -/
def scanStream (budget minC target : Nat) (posts : List RPost) : ScanResult :=
  scanPostsAux minC target [] 0 0 (posts.take budget)

/-- Oracle for the exception paths the per-post loop catches: which call (if
any) raises for this post.  `dedupCheck` models a `ClientError` from the
`get_item` of line 421; `commentFetch` an error while gathering comments;
`analysis` an exception between comment gathering and the S3 write (prompt
build, Parquet conversion); `s3Write` a failing `put_object`; `ledgerWrite` a
failing `put_item`. -/
inductive FailPoint where
  | noFail
  | dedupCheck
  | commentFetch
  | analysis
  | s3Write
  | ledgerWrite
deriving Repr, DecidableEq

/-- External calls the per-post loop performs, in order, with the success of
the two writes recorded. -/
inductive CallEvent where
  | dedupGet (pid : String)
  | commentFetch (pid : String)
  | bedrockInvoke (pid : String)
  | s3Put (pid : String) (ok : Bool)
  | ddbPut (pid : String) (ok : Bool)
deriving Repr, DecidableEq

/-- Terminal state of one post in the loop. -/
inductive Outcome where
  | processed
  | skippedDuplicate
  | failed
deriving Repr, DecidableEq

/-- Lines 419-553: the body of the per-post loop for one post, given the
current ledger contents and the failure oracle.  Returns the post's terminal
outcome and the ordered trace of external calls made for it. -/
def processPost (ledger : List String) (p : RPost) (fp : FailPoint) :
    Outcome × List CallEvent :=
  if fp = .dedupCheck then (.failed, [.dedupGet p.id])
  else if p.id ∈ ledger then (.skippedDuplicate, [.dedupGet p.id])
  else if fp = .commentFetch then (.failed, [.dedupGet p.id, .commentFetch p.id])
  else if fp = .analysis then
    (.failed, [.dedupGet p.id, .commentFetch p.id, .bedrockInvoke p.id])
  else if fp = .s3Write then
    (.failed, [.dedupGet p.id, .commentFetch p.id, .bedrockInvoke p.id, .s3Put p.id false])
  else if fp = .ledgerWrite then
    (.failed, [.dedupGet p.id, .commentFetch p.id, .bedrockInvoke p.id,
               .s3Put p.id true, .ddbPut p.id false])
  else
    (.processed, [.dedupGet p.id, .commentFetch p.id, .bedrockInvoke p.id,
                  .s3Put p.id true, .ddbPut p.id true])

/-- Accumulated state of the processing loop: the three outcome counters of
lines 342-345 (failed posts kept as their identifiers), the run's call trace,
and the ledger contents (a successful `put_item` adds the post). -/
structure RunState where
  processedCount : Nat
  skippedDuplicates : Nat
  failedPosts : List String
  trace : List CallEvent
  ledger : List String
deriving Repr, DecidableEq

/-- Lines 412-553: fold of the per-post body over the eligible posts. -/
def runLoopAux (st : RunState) : List (RPost × FailPoint) → RunState
  | [] => st
  | (p, fp) :: rest =>
    let r := processPost st.ledger p fp
    runLoopAux
      { processedCount := st.processedCount + (if r.1 = .processed then 1 else 0),
        skippedDuplicates := st.skippedDuplicates + (if r.1 = .skippedDuplicate then 1 else 0),
        failedPosts := st.failedPosts ++ (if r.1 = .failed then [p.id] else []),
        trace := st.trace ++ r.2,
        ledger := st.ledger ++ (if r.1 = .processed then [p.id] else []) } rest

/-- The whole processing loop, from the initial counters of lines 342-345. -/
def runLoop (ledger : List String) (posts : List (RPost × FailPoint)) : RunState :=
  runLoopAux ⟨0, 0, [], [], ledger⟩ posts

/-- A string-valued field. -/
def isStrVal : JValue → Bool
  | .str _ => true
  | _ => false

/-- Shape of one normalized `primary_concepts` entry: exactly the four string
fields, in the insertion order of lines 267-272. -/
def wfConcept : JValue → Bool
  | .obj [("name", .str _), ("definition", .str _), ("use_case", .str _),
          ("how_it_functions", .str _)] => true
  | _ => false

/-- Shape of a normalized `problem_explanation`: an object with the list
`primary_concepts` of well-shaped entries and a string `explanation`. -/
def wfProblemExplanation : JValue → Bool
  | .obj [("primary_concepts", .arr cs), ("explanation", .str _)] => cs.all wfConcept
  | _ => false

/-- The `AnalysisResult` schema: an object with exactly the five keys of the
contract, each of the declared type. -/
def wfAnalysisResult : JValue → Bool
  | .obj [("problem_summary", .str _), ("problem_explanation", pe),
          ("solution_summary", .str _), ("solution_explanation", .str _),
          ("suggested_categories", .arr sc)] =>
    wfProblemExplanation pe && sc.all isStrVal
  | _ => false

theorem stdConcepts_all_wf (v : JValue) : (stdConcepts v).all wfConcept = true := by
  cases v with
  | arr items =>
    induction items with
    | nil => rfl
    | cons c rest ih =>
      cases c <;> simp_all [stdConcepts, List.filterMap_cons, wfConcept, stdConcept]
  | _ => rfl

theorem wfPE_std (v : JValue) : wfProblemExplanation (stdProblemExplanation v) = true := by
  cases v with
  | obj pf =>
    have h := stdConcepts_all_wf (dget pf "primary_concepts" (.arr []))
    simp [stdProblemExplanation, wfProblemExplanation, h]
  | _ => rfl

theorem all_isStrVal (l : List String) : (l.map JValue.str).all isStrVal = true := by
  induction l with
  | nil => rfl
  | cons s rest ih => simp [isStrVal, ih]

/-- Claim C1: for every parsed JSON object — including the empty map, maps
with wrong-typed fields, and deeply nested unexpected structures — the
"Standardize and Validate Parsed JSON" step of `invoke_bedrock` produces,
without raising, a record with exactly the five schema keys of the declared
types: string `problem_summary`, object `problem_explanation` (list
`primary_concepts` of four-string-field entries plus string `explanation`),
string `solution_summary`, string `solution_explanation`, and list-of-string
`suggested_categories`.  (An extracted span always parses to an object, so
objects are the whole domain of this step; totality is inherent in the
function being defined on all of them.) -/
theorem c1_normalizer_schema_total (fs : List (String × JValue)) :
    wfAnalysisResult (standardizeAnalysisJson fs) = true := by
  have h1 := wfPE_std (dget fs "problem_explanation" (.obj []))
  have h2 := all_isStrVal (stdSuggestedCategories (dlookup fs "suggested_categories"))
  calc wfAnalysisResult (standardizeAnalysisJson fs)
      = (wfProblemExplanation (stdProblemExplanation (dget fs "problem_explanation" (.obj []))) &&
         ((stdSuggestedCategories (dlookup fs "suggested_categories")).map .str).all isStrVal) := rfl
    _ = true := by rw [h1, h2]; rfl

/-- A well-formed `primary_concepts` entry built from its four string fields,
keys in the canonical (insertion) order. -/
def mkConceptObj (c : String × String × String × String) : JValue :=
  .obj [("name", .str c.1), ("definition", .str c.2.1), ("use_case", .str c.2.2.1),
        ("how_it_functions", .str c.2.2.2)]

/-- A well-formed `AnalysisResult`-shaped map, keys in the canonical order
(the insertion order the normalizer itself uses; `dict` equality in Python is
order-insensitive, so this order is representative). -/
def mkWellFormedFields (ps : String) (cs : List (String × String × String × String))
    (expl ss se : String) (cats : List String) : List (String × JValue) :=
  [("problem_summary", .str ps),
   ("problem_explanation",
    .obj [("primary_concepts", .arr (cs.map mkConceptObj)), ("explanation", .str expl)]),
   ("solution_summary", .str ss),
   ("solution_explanation", .str se),
   ("suggested_categories", .arr (cats.map .str))]

theorem stdConcepts_map (cs : List (String × String × String × String)) :
    stdConcepts (.arr (cs.map mkConceptObj)) = cs.map mkConceptObj := by
  induction cs with
  | nil => rfl
  | cons c rest ih =>
    obtain ⟨n, d, u, h⟩ := c
    simp only [stdConcepts, List.map_cons, List.filterMap_cons] at ih ⊢
    rw [ih]
    rfl

theorem stdCats_roundtrip (cats : List String) :
    stdSuggestedCategories (some (.arr (cats.map .str))) = cats := by
  induction cats with
  | nil => rfl
  | cons c rest ih =>
    simp only [stdSuggestedCategories, List.map_cons, List.filterMap_cons] at ih ⊢
    rw [ih]

/-- Claim C2 (amended): normalizing an already-well-formed
`AnalysisResult`-shaped map whose `problem_explanation` is in the structured
(object) form returns it unchanged, up to the canonical key order.  The
string form of `problem_explanation` is NOT preserved: the quoted text of the
claim normalizes with `problem_summary` `"x"`, `solution_summary` `"z"`,
`solution_explanation` `"w"` and `suggested_categories` `["EC2"]` kept
verbatim, but `problem_explanation` replaced by the default structure
`\x7b"primary_concepts": [], "explanation": "N/A - Content missing"\x7d`
rather than the string `"y"` (see the counterexample). -/
theorem c2_normalize_idempotent (ps : String)
    (cs : List (String × String × String × String)) (expl ss se : String)
    (cats : List String) :
    standardizeAnalysisJson (mkWellFormedFields ps cs expl ss se cats) =
      .obj (mkWellFormedFields ps cs expl ss se cats) := by
  have hc := stdConcepts_map cs
  have hk := stdCats_roundtrip cats
  simp [standardizeAnalysisJson, mkWellFormedFields, dget, dlookup,
        stdProblemExplanation, stdSolutionExplanation, pyStr, hc, hk]

/-- The exact model-output text quoted by claim C2. -/
def c2text : String :=
  "\x7b\"problem_summary\": \"x\", \"problem_explanation\": \"y\", \"solution_summary\": \"z\", \"solution_explanation\": \"w\", \"suggested_categories\": [\"EC2\"]\x7d"

set_option maxRecDepth 16000 in
/-- Claim C2 (counterexample): extracting and normalizing the exact text of
the claim does not return the input structure — `problem_explanation` comes
back as the default object, not as the string `"y"`. -/
theorem c2_counterexample :
    processAnalysisText c2text =
      .obj [("problem_summary", .str "x"),
            ("problem_explanation",
             .obj [("primary_concepts", .arr []), ("explanation", .str "N/A - Content missing")]),
            ("solution_summary", .str "z"),
            ("solution_explanation", .str "w"),
            ("suggested_categories", .arr [.str "EC2"])] ∧
    getField (processAnalysisText c2text) "problem_explanation" ≠ some (.str "y") := by
  refine ⟨rfl, ?_⟩
  intro h
  rw [show getField (processAnalysisText c2text) "problem_explanation" =
        some (.obj [("primary_concepts", .arr []), ("explanation", .str "N/A - Content missing")])
      from rfl] at h
  exact JValue.noConfusion (Option.some.inj h)

/-- Length of the `suggested_categories` field of a returned record. -/
def scLength (v : JValue) : Nat :=
  match getField v "suggested_categories" with
  | some (.arr l) => l.length
  | _ => 0

/-- Claim C3 (counterexample): the normalizer enforces no cap of 3 on
`suggested_categories` — a parsed list of four strings is passed through with
all four elements, so the returned list can exceed 3 elements. -/
theorem c3_counterexample :
    getField
        (standardizeAnalysisJson
          [("suggested_categories", .arr [.str "EC2", .str "S3", .str "IAM", .str "Lambda"])])
        "suggested_categories" =
      some (.arr [.str "EC2", .str "S3", .str "IAM", .str "Lambda"]) ∧
    ¬ scLength
        (standardizeAnalysisJson
          [("suggested_categories", .arr [.str "EC2", .str "S3", .str "IAM", .str "Lambda"])]) ≤ 3 := by
  refine ⟨rfl, ?_⟩
  rw [show scLength
        (standardizeAnalysisJson
          [("suggested_categories", .arr [.str "EC2", .str "S3", .str "IAM", .str "Lambda"])]) = 4
      from rfl]
  decide

/-- Claim C3 (amended): for every input text, the `suggested_categories`
field of the record `invoke_bedrock` returns is a list whose elements are all
strings (never a non-string element); no bound of 3 on its length is
enforced — the success path keeps every primitive-typed element of the parsed
list (see the counterexample). -/
theorem getField_mkError_categories (ps ss : String) (cats : List String) :
    getField (mkErrorRecord ps ss cats) "suggested_categories" =
      some (.arr (cats.map JValue.str)) := rfl

theorem getField_std_categories (fs : List (String × JValue)) :
    getField (standardizeAnalysisJson fs) "suggested_categories" =
      some (.arr ((stdSuggestedCategories (dlookup fs "suggested_categories")).map .str)) := rfl

theorem c3_categories_all_strings (text : String) :
    ∃ l : List String,
      getField (processAnalysisText text) "suggested_categories" =
        some (.arr (l.map JValue.str)) := by
  cases hex : extractJsonSpan text with
  | none =>
    refine ⟨["Error", "No JSON Found via Regex"], ?_⟩
    simp only [processAnalysisText, hex]
    exact getField_mkError_categories _ _ _
  | some span =>
    cases hp : jsonLoads (sanitizeJsonStr span) with
    | error msg =>
      refine ⟨["Error", "Fatal Parsing Failed", msg], ?_⟩
      simp only [processAnalysisText, hex, hp]
      exact getField_mkError_categories _ _ _
    | ok v =>
      cases v with
      | obj fs =>
        refine ⟨stdSuggestedCategories (dlookup fs "suggested_categories"), ?_⟩
        simp only [processAnalysisText, hex, hp]
        exact getField_std_categories fs
      | null =>
        refine ⟨defaultCatsError, ?_⟩
        simp only [processAnalysisText, hex, hp]
        exact getField_mkError_categories _ _ _
      | bool b =>
        refine ⟨defaultCatsError, ?_⟩
        simp only [processAnalysisText, hex, hp]
        exact getField_mkError_categories _ _ _
      | int n =>
        refine ⟨defaultCatsError, ?_⟩
        simp only [processAnalysisText, hex, hp]
        exact getField_mkError_categories _ _ _
      | str s =>
        refine ⟨defaultCatsError, ?_⟩
        simp only [processAnalysisText, hex, hp]
        exact getField_mkError_categories _ _ _
      | arr items =>
        refine ⟨defaultCatsError, ?_⟩
        simp only [processAnalysisText, hex, hp]
        exact getField_mkError_categories _ _ _

/-- Claim C4 (amended): `problem_summary` and `solution_summary` fall back to
the sentinel `"N/A - Key missing or invalid type"` only when the key is
ABSENT; a key that is present with a wrong-typed value is coerced with
Python's `str()` instead (a numeric 42 yields `"42"`, not the sentinel — see
the counterexample). -/
theorem c4_summary_sentinel_rule (fs : List (String × JValue)) (v : JValue)
    (hps : dlookup fs "problem_summary" = some v)
    (hss : dlookup fs "solution_summary" = none) :
    getField (standardizeAnalysisJson fs) "problem_summary" = some (.str (pyStr v)) ∧
    getField (standardizeAnalysisJson fs) "solution_summary" =
      some (.str sentinelMissing) := by
  constructor
  · rw [show getField (standardizeAnalysisJson fs) "problem_summary" =
          some (.str (pyStr (dget fs "problem_summary" (.str sentinelMissing)))) from rfl,
        dget, hps]
    rfl
  · rw [show getField (standardizeAnalysisJson fs) "solution_summary" =
          some (.str (pyStr (dget fs "solution_summary" (.str sentinelMissing)))) from rfl,
        dget, hss]
    rfl

/-- Claim C4 (witness): on the map `\x7b"problem_summary": 42\x7d` the
present wrong-typed key is coerced to `"42"` and the absent
`solution_summary` receives the sentinel. -/
theorem c4_witness :
    getField (standardizeAnalysisJson [("problem_summary", JValue.int 42)])
        "problem_summary" = some (.str "42") ∧
    getField (standardizeAnalysisJson [("problem_summary", JValue.int 42)])
        "solution_summary" = some (.str sentinelMissing) :=
  c4_summary_sentinel_rule [("problem_summary", JValue.int 42)] (JValue.int 42) rfl rfl

/-- Claim C4 (counterexample): a present numeric `problem_summary` of 42
yields `"42"`, not the sentinel the claim requires for wrong-typed values. -/
theorem c4_counterexample :
    getField (standardizeAnalysisJson [("problem_summary", JValue.int 42)])
        "problem_summary" = some (.str "42") ∧
    "42" ≠ sentinelMissing := by
  exact ⟨rfl, by decide⟩

/-- The claim C6 example: a brace span with a raw 0x01 byte inside a JSON
string value. -/
def ctrlSpan : String := "\x7b\"a\": \"b\x01c\"\x7d"

/-- Claim C6: the sanitization step removes exactly the ASCII control
characters in the ranges 0x00-0x08, 0x0B-0x0C and 0x0E-0x1F, preserving tab,
newline, carriage return and every other character; consequently a span with
a raw 0x01 byte inside a JSON string value parses successfully after
sanitization. -/
theorem c6_sanitization_exact :
    (∀ c : Char, sanitizeJsonStr ⟨[c]⟩ = "" ↔
        ((0x00 ≤ c.toNat ∧ c.toNat ≤ 0x08) ∨ c.toNat = 0x0B ∨ c.toNat = 0x0C ∨
         (0x0E ≤ c.toNat ∧ c.toNat ≤ 0x1F))) ∧
    (∀ c : Char, sanitizeJsonStr ⟨[c]⟩ = ⟨[c]⟩ ↔
        ¬ ((0x00 ≤ c.toNat ∧ c.toNat ≤ 0x08) ∨ c.toNat = 0x0B ∨ c.toNat = 0x0C ∨
           (0x0E ≤ c.toNat ∧ c.toNat ≤ 0x1F))) ∧
    sanitizeJsonStr "\t" = "\t" ∧ sanitizeJsonStr "\n" = "\n" ∧
    sanitizeJsonStr "\r" = "\r" ∧
    sanitizeJsonStr ctrlSpan = "\x7b\"a\": \"bc\"\x7d" ∧
    jsonLoads (sanitizeJsonStr ctrlSpan) = .ok (.obj [("a", .str "bc")]) := by
  have hchar : ∀ c : Char, strippedChar c = true ↔
      ((0x00 ≤ c.toNat ∧ c.toNat ≤ 0x08) ∨ c.toNat = 0x0B ∨ c.toNat = 0x0C ∨
       (0x0E ≤ c.toNat ∧ c.toNat ≤ 0x1F)) := by
    intro c
    exact decide_eq_true_iff
  refine ⟨?_, ?_, rfl, rfl, rfl, rfl, rfl⟩
  · intro c
    rw [← hchar c]
    unfold sanitizeJsonStr
    cases hs : strippedChar c <;>
      simp [String.ext_iff, List.filter_cons, hs]
  · intro c
    rw [← hchar c]
    unfold sanitizeJsonStr
    cases hs : strippedChar c <;>
      simp [String.ext_iff, List.filter_cons, hs]

/-- Claim C5 (counterexample): on `'a \x7bx\x7d b \x7by\x7d'` the anchored
pattern fails and the fallback regex — whose `.*?` is lazy — matches
`'\x7bx\x7d'`, the span from the first opening brace to the FIRST closing
brace, not the claimed span `'\x7bx\x7d b \x7by\x7d'` reaching the last
closing brace. -/
theorem c5_counterexample :
    extractJsonSpan "a \x7bx\x7d b \x7by\x7d" = some "\x7bx\x7d" ∧
    extractJsonSpan "a \x7bx\x7d b \x7by\x7d" ≠ some "\x7bx\x7d b \x7by\x7d" := by
  constructor
  · decide
  · decide

theorem dropWhile_head_false {α : Type} (p : α → Bool) :
    ∀ (l : List α) (b : α) (t : List α), l.dropWhile p = b :: t → p b = false := by
  intro l
  induction l with
  | nil => intro b t h; exact absurd h (by simp)
  | cons c cs ih =>
    intro b t h
    rw [List.dropWhile_cons] at h
    by_cases hc : p c = true
    · rw [if_pos hc] at h
      exact ih b t h
    · rw [if_neg hc] at h
      injection h with h1 _
      subst h1
      exact Bool.eq_false_iff.mpr hc

/-- Claim C5 (amended): when the whole-trimmed-string pattern fails, the
fallback selects the span from the first opening brace to the FIRST closing
brace after it (the `.*?` of the fallback regex is lazy, not greedy): the
text splits as `pre ++ span ++ suf` with no opening brace in `pre` and no
closing brace strictly inside the span.  On `'a \x7bx\x7d b \x7by\x7d'` this
yields `'\x7bx\x7d'`. -/
theorem c5_fallback_first_to_first (s r : String)
    (hstrict : strictSpan s.data = none)
    (hex : extractJsonSpan s = some r) :
    ∃ pre mid suf : List Char,
      s.data = pre ++ r.data ++ suf ∧
      r.data = '\x7b' :: (mid ++ ['\x7d']) ∧
      (∀ c ∈ pre, c ≠ '\x7b') ∧ (∀ c ∈ mid, c ≠ '\x7d') := by
  unfold extractJsonSpan at hex
  rw [hstrict] at hex
  obtain ⟨g, hg, hr⟩ := Option.map_eq_some'.mp hex
  have hrd : r.data = g := by rw [← hr]
  unfold fallbackSpan at hg
  split at hg
  next => exact absurd hg (by simp)
  next b tail hd =>
    split at hg
    next => exact absurd hg (by simp)
    next d2 suf hd2 =>
      simp only [Option.some.injEq] at hg
      have hb : b = '\x7b' := by
        have := dropWhile_head_false _ _ _ _ hd
        simpa using this
      have hd2c : d2 = '\x7d' := by
        have := dropWhile_head_false _ _ _ _ hd2
        simpa using this
      refine ⟨s.data.takeWhile (fun c => c ≠ '\x7b'),
              tail.takeWhile (fun c => c ≠ '\x7d'), suf, ?_, ?_, ?_, ?_⟩
      · have hsplit1 := List.takeWhile_append_dropWhile (l := s.data)
          (p := fun c => c ≠ '\x7b')
        have hsplit2 := List.takeWhile_append_dropWhile (l := tail)
          (p := fun c => c ≠ '\x7d')
        rw [hrd, ← hg, hb]
        calc s.data
            = s.data.takeWhile (fun c => c ≠ '\x7b') ++
                s.data.dropWhile (fun c => c ≠ '\x7b') := hsplit1.symm
          _ = s.data.takeWhile (fun c => c ≠ '\x7b') ++ ('\x7b' :: tail) := by
              rw [hd, hb]
          _ = s.data.takeWhile (fun c => c ≠ '\x7b') ++
                ('\x7b' :: (tail.takeWhile (fun c => c ≠ '\x7d') ++
                  tail.dropWhile (fun c => c ≠ '\x7d'))) := by rw [hsplit2]
          _ = s.data.takeWhile (fun c => c ≠ '\x7b') ++
                ('\x7b' :: (tail.takeWhile (fun c => c ≠ '\x7d') ++ ['\x7d'])) ++ suf := by
              rw [hd2, hd2c]
              simp
      · rw [hrd, ← hg, hb]
      · intro c hc
        have := List.mem_takeWhile_imp hc
        simpa using this
      · intro c hc
        have := List.mem_takeWhile_imp hc
        simpa using this

/-- Claim C5 (witness): the amended characterization instantiated on the
claim's example, whose fallback match is `'\x7bx\x7d'`. -/
theorem c5_witness :
    strictSpan ("a \x7bx\x7d b \x7by\x7d").data = none ∧
    (∃ pre mid suf : List Char,
      ("a \x7bx\x7d b \x7by\x7d" : String).data = pre ++ ("\x7bx\x7d" : String).data ++ suf ∧
      ("\x7bx\x7d" : String).data = '\x7b' :: (mid ++ ['\x7d']) ∧
      (∀ c ∈ pre, c ≠ '\x7b') ∧ (∀ c ∈ mid, c ≠ '\x7d')) :=
  ⟨by decide,
   c5_fallback_first_to_first "a \x7bx\x7d b \x7by\x7d" "\x7bx\x7d" (by decide) (by decide)⟩

/-- Claim C7: for every post, a ledger write (`put_item`) only ever occurs as
the final call of a trace in which the columnar record write (`put_object`)
has already SUCCEEDED — never before it; and when the record write raises,
the post's outcome is `failed` and no ledger write of any kind is attempted
for it. -/
theorem c7_ledger_after_store (ledger : List String) (p : RPost) (fp : FailPoint) :
    (∀ b : Bool, CallEvent.ddbPut p.id b ∈ (processPost ledger p fp).2 →
      (processPost ledger p fp).2 =
        [.dedupGet p.id, .commentFetch p.id, .bedrockInvoke p.id,
         .s3Put p.id true, .ddbPut p.id b]) ∧
    (fp = .s3Write → p.id ∉ ledger →
      (processPost ledger p fp).1 = .failed ∧
      ∀ b : Bool, CallEvent.ddbPut p.id b ∉ (processPost ledger p fp).2) := by
  constructor
  · intro b hb
    cases fp <;> by_cases hmem : p.id ∈ ledger <;> simp_all [processPost]
  · intro hfp hmem
    subst hfp
    simp [processPost, hmem]

/-- Claim C7 (witness): on a fresh post the successful trace ends with the
ledger write directly after the successful record write, and with a failing
record write the outcome is `failed` with no ledger write attempted. -/
theorem c7_witness :
    (processPost [] ⟨"w7", 5⟩ .noFail).2 =
      [CallEvent.dedupGet "w7", .commentFetch "w7", .bedrockInvoke "w7",
       .s3Put "w7" true, .ddbPut "w7" true] ∧
    (processPost [] ⟨"w7", 5⟩ .s3Write).1 = .failed ∧
    (∀ b : Bool, CallEvent.ddbPut "w7" b ∉ (processPost [] ⟨"w7", 5⟩ .s3Write).2) :=
  ⟨(c7_ledger_after_store [] ⟨"w7", 5⟩ .noFail).1 true (by decide),
   ((c7_ledger_after_store [] ⟨"w7", 5⟩ .s3Write).2 rfl (by decide)).1,
   ((c7_ledger_after_store [] ⟨"w7", 5⟩ .s3Write).2 rfl (by decide)).2⟩

/-- Claim C8: an eligible post whose identifier is already in the ledger (and
whose ledger lookup call itself succeeds) makes no comment-fetch, model
invocation, storage write or ledger write — its only call is the dedup
lookup — and the loop state changes only by incrementing the duplicate-skip
counter. -/
theorem c8_duplicate_skip (st : RunState) (p : RPost) (fp : FailPoint)
    (rest : List (RPost × FailPoint))
    (hmem : p.id ∈ st.ledger) (hfp : fp ≠ .dedupCheck) :
    processPost st.ledger p fp = (.skippedDuplicate, [.dedupGet p.id]) ∧
    runLoopAux st ((p, fp) :: rest) =
      runLoopAux { st with
        skippedDuplicates := st.skippedDuplicates + 1
        trace := st.trace ++ [CallEvent.dedupGet p.id] } rest := by
  have hpp : processPost st.ledger p fp = (.skippedDuplicate, [.dedupGet p.id]) := by
    simp [processPost, hmem, hfp]
  refine ⟨hpp, ?_⟩
  simp [runLoopAux, hpp]

/-- Claim C8 (witness): a ledger-hit post leaves the processed count, failed
list and ledger unchanged and bumps only the duplicate-skip counter. -/
theorem c8_witness :
    processPost ["d1"] ⟨"d1", 7⟩ .noFail = (.skippedDuplicate, [CallEvent.dedupGet "d1"]) ∧
    runLoopAux ⟨0, 0, [], [], ["d1"]⟩ [(⟨"d1", 7⟩, .noFail)] =
      runLoopAux ⟨0, 0 + 1, [], [] ++ [CallEvent.dedupGet "d1"], ["d1"]⟩ [] :=
  c8_duplicate_skip ⟨0, 0, [], [], ["d1"]⟩ ⟨"d1", 7⟩ .noFail [] (by decide) (by decide)

/-- The 50-post newest-first stream of claim C9: exactly the posts at
positions 1, 3 and 5 meet the comment threshold of 2. -/
def c9posts : List RPost :=
  (List.range 50).map
    (fun i => { id := toString (i + 1), numComments := if i % 2 = 0 ∧ i < 5 then 5 else 0 })

/-- Claim C9 (counterexample): with threshold 2 and target 2 over that
stream, the scan returns posts 1 and 3 and stops at position 3 — before ever
examining position 4 — so the low-comment skip count is 1 (position 2 only),
not the 2 the claim states. -/
theorem c9_counterexample :
    (scanStream 50 2 2 c9posts).eligible.map RPost.id = ["1", "3"] ∧
    (scanStream 50 2 2 c9posts).skippedLow = 1 ∧
    (scanStream 50 2 2 c9posts).skippedLow ≠ 2 := by
  refine ⟨by decide, by decide, by decide⟩

/-- Claim C9 (amended): the scan returns exactly the posts at positions 1 and
3, stops at position 3 (in particular no later than position 5), and its
low-comment skip count is 1, reflecting position 2 alone — positions 4 and 5
are never examined because the early stop fires as soon as the second
eligible post is collected. -/
theorem c9_scan_early_stop :
    (scanStream 50 2 2 c9posts).eligible.map RPost.id = ["1", "3"] ∧
    (scanStream 50 2 2 c9posts).checked = 3 ∧
    (scanStream 50 2 2 c9posts).checked ≤ 5 ∧
    (scanStream 50 2 2 c9posts).skippedLow = 1 := by
  refine ⟨by decide, by decide, by decide, by decide⟩

theorem runLoopAux_partition (posts : List (RPost × FailPoint)) :
    ∀ st : RunState,
      (runLoopAux st posts).processedCount + (runLoopAux st posts).skippedDuplicates +
          (runLoopAux st posts).failedPosts.length =
        st.processedCount + st.skippedDuplicates + st.failedPosts.length + posts.length := by
  induction posts with
  | nil => intro st; simp [runLoopAux]
  | cons pf rest ih =>
    intro st
    obtain ⟨p, fp⟩ := pf
    simp only [runLoopAux]
    rw [ih]
    rcases ho : (processPost st.ledger p fp).1 <;> simp [ho] <;> omega

/-- Claim C10: at the end of the per-post loop every eligible post has been
counted in exactly one of the three outcomes, so the processed count plus the
duplicate-skip count plus the length of the failed-post list equals the
number of eligible posts. -/
theorem c10_outcome_partition (ledger : List String) (posts : List (RPost × FailPoint)) :
    (runLoop ledger posts).processedCount + (runLoop ledger posts).skippedDuplicates +
        (runLoop ledger posts).failedPosts.length = posts.length := by
  have h := runLoopAux_partition posts ⟨0, 0, [], [], ledger⟩
  simpa [runLoop] using h
